import Mathlib

/-!
Verification of the Transgrade pipeline orchestrator
(`backend/pipeline/{models,views,admin}.py` and its management commands).

The data model and the operations of the control surface are shallowly
embedded as plain Lean definitions translated from the Python source.
The worker / dispatch logic (`pipeline/tasks.py`) is referenced by the
source under `src/` but is itself not part of it; the definitions that
stand in for it carry a doc comment starting `Modelled from the spec:`
and follow the specification's words.

Conventions of the embedding:
* Django enum `CharField` choices become Lean inductive types.
* Machine integers become `Nat` / `Int` (counts never overflow here).
* Wall-clock timestamps are opaque `Nat` / `Int` values supplied by the
  environment; `auto_now_add` fields are modelled as data the caller picks.
* Nullable fields become `Option`.
* The six status/stage columns of a `StudentQueue` row that drive the
  per-student state machine are grouped into one sub-record
  `StudentState` so that finite case analysis over the machine states
  is possible; the field names are exactly the Python column names.
-/

/-- `StudentQueue.STATUS_CHOICES` of `pipeline/models.py`. -/
inductive Status where
  | pending
  | processing
  | completed
  | failed
deriving DecidableEq, Repr, Fintype

/-- `StudentQueue.STAGE_CHOICES` of `pipeline/models.py`: the 13 stage
states plus the terminal `failed` state of `current_stage`. -/
inductive CurrentStage where
  | discovered
  | ocr_pending
  | ocr_processing
  | ocr_completed
  | chunking_pending
  | chunking_processing
  | chunking_completed
  | qa_pending
  | qa_processing
  | qa_completed
  | grading_pending
  | grading_processing
  | grading_completed
  | failed
deriving DecidableEq, Repr, Fintype

/-- `PipelineJob.STATUS_CHOICES` of `pipeline/models.py`. -/
inductive JobStatus where
  | initiated
  | stamp_processing
  | students_discovered
  | pipeline_active
  | completed
  | failed
deriving DecidableEq, Repr, Fintype

/-- The four processing stages (ocr, chunking, qa, grading), in pipeline
order.  The source keys them by the strings used in the
`<stage>_status` column names. -/
inductive Stage where
  | ocr
  | chunking
  | qa
  | grading
deriving DecidableEq, Repr, Fintype

/-- The state-machine columns of a `StudentQueue` row
(`pipeline/models.py`): `current_stage`, `overall_status` and the four
per-stage statuses. -/
structure StudentState where
  current_stage : CurrentStage
  overall_status : Status
  ocr_status : Status
  chunking_status : Status
  qa_status : Status
  grading_status : Status
deriving DecidableEq, Repr, Fintype

/-- The `<stage>_pending` value of `current_stage` for a stage. -/
def pendingStage : Stage → CurrentStage
  | .ocr => .ocr_pending
  | .chunking => .chunking_pending
  | .qa => .qa_pending
  | .grading => .grading_pending

/-- The `<stage>_processing` value of `current_stage` for a stage. -/
def processingStage : Stage → CurrentStage
  | .ocr => .ocr_processing
  | .chunking => .chunking_processing
  | .qa => .qa_processing
  | .grading => .grading_processing

/-- The `<stage>_status` column of a row, selected by stage. -/
def stageStatusOf (s : StudentState) : Stage → Status
  | .ocr => s.ocr_status
  | .chunking => s.chunking_status
  | .qa => s.qa_status
  | .grading => s.grading_status

/-- Write the `<stage>_status` column of a row, selected by stage. -/
def setStageStatus (s : StudentState) : Stage → Status → StudentState
  | .ocr, v => { s with ocr_status := v }
  | .chunking, v => { s with chunking_status := v }
  | .qa, v => { s with qa_status := v }
  | .grading, v => { s with grading_status := v }

/-- The stage after a given stage in the fixed pipeline order
(`none` after grading). -/
def nextStage : Stage → Option Stage
  | .ocr => some .chunking
  | .chunking => some .qa
  | .qa => some .grading
  | .grading => none

/-- Modelled from the spec: the claim protocol (§5) of `pipeline/tasks.py`,
which is not part of `src/`.  A worker for stage `st` may claim an entry
that is queued for that stage (`current_stage` is the stage's pending
state; the freshly `discovered` state queues for ocr) and whose stage
status is still `pending` at update time. -/
def claimGuard (st : Stage) (s : StudentState) : Bool :=
  (s.current_stage == pendingStage st
    || (st == .ocr && s.current_stage == .discovered))
  && stageStatusOf s st == .pending

/-- Modelled from the spec: `pending → processing` (§4.2); sets the stage
status to `processing` and moves `current_stage` / `overall_status`
accordingly. -/
def claimCore (st : Stage) (s : StudentState) : StudentState :=
  { setStageStatus s st .processing with
    current_stage := processingStage st, overall_status := .processing }

/-- Modelled from the spec: a worker owns an entry in stage `st` when the
entry is in that stage's `processing` state (§4.2, §4.3). -/
def workGuard (st : Stage) (s : StudentState) : Bool :=
  s.current_stage == processingStage st && stageStatusOf s st == .processing

/-- Modelled from the spec: `processing → completed` (§4.2); the stage
status becomes `completed` and `current_stage` advances to the next
stage's pending state, or to terminal `grading_completed` after the last
stage. -/
def completeCore (st : Stage) (s : StudentState) : StudentState :=
  match nextStage st with
  | some st2 =>
      { setStageStatus s st .completed with
        current_stage := pendingStage st2, overall_status := .pending }
  | none =>
      { setStageStatus s st .completed with
        current_stage := .grading_completed, overall_status := .completed }

/-- Modelled from the spec: transient `processing → pending` on the same
stage (§4.2). -/
def failTransientCore (st : Stage) (s : StudentState) : StudentState :=
  { setStageStatus s st .pending with
    current_stage := pendingStage st, overall_status := .pending }

/-- Modelled from the spec: permanent `processing → failed` (§4.2); the
stage status becomes `failed`, `overall_status = failed`,
`current_stage = failed`. -/
def failPermanentCore (st : Stage) (s : StudentState) : StudentState :=
  { setStageStatus s st .failed with
    current_stage := .failed, overall_status := .failed }

/-- The state-machine part of `retry_failed_student`
(`pipeline/views.py`, lines 259-279): reset the student to the
appropriate pending state based on the last failed stage, checking
grading, qa, chunking, ocr in that order, falling back to the start of
the pipeline; then `overall_status = pending`. -/
def retryCore (s : StudentState) : StudentState :=
  let s1 :=
    if s.grading_status == .failed then
      { s with grading_status := .pending, current_stage := .grading_pending }
    else if s.qa_status == .failed then
      { s with qa_status := .pending, current_stage := .qa_pending }
    else if s.chunking_status == .failed then
      { s with chunking_status := .pending, current_stage := .chunking_pending }
    else if s.ocr_status == .failed then
      { s with ocr_status := .pending, current_stage := .ocr_pending }
    else
      { s with current_stage := .ocr_pending }
  { s1 with overall_status := .pending }

/-- The state-machine part of the `reset_failed_students` management
command (`Command.handle`): same stage chain as `retryCore` but with no
fallback branch when no stage status is `failed`. -/
def cmdResetCore (s : StudentState) : StudentState :=
  let s1 :=
    if s.grading_status == .failed then
      { s with grading_status := .pending, current_stage := .grading_pending }
    else if s.qa_status == .failed then
      { s with qa_status := .pending, current_stage := .qa_pending }
    else if s.chunking_status == .failed then
      { s with chunking_status := .pending, current_stage := .chunking_pending }
    else if s.ocr_status == .failed then
      { s with ocr_status := .pending, current_stage := .ocr_pending }
    else s
  { s1 with overall_status := .pending }

/-- The state-machine part of the admin action
`StudentQueueAdmin.retry_failed_students` (`pipeline/admin.py`): checks
the stages in ocr, chunking, qa, grading order and has no fallback
branch. -/
def adminResetCore (s : StudentState) : StudentState :=
  let s1 :=
    if s.ocr_status == .failed then
      { s with current_stage := .ocr_pending, ocr_status := .pending }
    else if s.chunking_status == .failed then
      { s with current_stage := .chunking_pending, chunking_status := .pending }
    else if s.qa_status == .failed then
      { s with current_stage := .qa_pending, qa_status := .pending }
    else if s.grading_status == .failed then
      { s with current_stage := .grading_pending, grading_status := .pending }
    else s
  { s1 with overall_status := .pending }

/-- Consistency of a non-failed row: the stages strictly before
`current_stage` are `completed`, the stage of `current_stage` carries
the matching status, the stages after it are still at their `pending`
default, and `overall_status` matches.  (`current_stage ∈
{ocr_completed, chunking_completed, qa_completed}` does not occur: the
machine advances straight to the next stage's pending state.) -/
def stateOk (s : StudentState) : Bool :=
  match s.current_stage with
  | .discovered =>
      s.overall_status == .pending && s.ocr_status == .pending
        && s.chunking_status == .pending && s.qa_status == .pending
        && s.grading_status == .pending
  | .ocr_pending =>
      s.overall_status == .pending && s.ocr_status == .pending
        && s.chunking_status == .pending && s.qa_status == .pending
        && s.grading_status == .pending
  | .ocr_processing =>
      s.overall_status == .processing && s.ocr_status == .processing
        && s.chunking_status == .pending && s.qa_status == .pending
        && s.grading_status == .pending
  | .ocr_completed => false
  | .chunking_pending =>
      s.overall_status == .pending && s.ocr_status == .completed
        && s.chunking_status == .pending && s.qa_status == .pending
        && s.grading_status == .pending
  | .chunking_processing =>
      s.overall_status == .processing && s.ocr_status == .completed
        && s.chunking_status == .processing && s.qa_status == .pending
        && s.grading_status == .pending
  | .chunking_completed => false
  | .qa_pending =>
      s.overall_status == .pending && s.ocr_status == .completed
        && s.chunking_status == .completed && s.qa_status == .pending
        && s.grading_status == .pending
  | .qa_processing =>
      s.overall_status == .processing && s.ocr_status == .completed
        && s.chunking_status == .completed && s.qa_status == .processing
        && s.grading_status == .pending
  | .qa_completed => false
  | .grading_pending =>
      s.overall_status == .pending && s.ocr_status == .completed
        && s.chunking_status == .completed && s.qa_status == .completed
        && s.grading_status == .pending
  | .grading_processing =>
      s.overall_status == .processing && s.ocr_status == .completed
        && s.chunking_status == .completed && s.qa_status == .completed
        && s.grading_status == .processing
  | .grading_completed =>
      s.overall_status == .completed && s.ocr_status == .completed
        && s.chunking_status == .completed && s.qa_status == .completed
        && s.grading_status == .completed
  | .failed =>
      s.overall_status == .failed
        && ((s.ocr_status == .failed && s.chunking_status == .pending
              && s.qa_status == .pending && s.grading_status == .pending)
          || (s.ocr_status == .completed && s.chunking_status == .failed
              && s.qa_status == .pending && s.grading_status == .pending)
          || (s.ocr_status == .completed && s.chunking_status == .completed
              && s.qa_status == .failed && s.grading_status == .pending)
          || (s.ocr_status == .completed && s.chunking_status == .completed
              && s.qa_status == .completed && s.grading_status == .failed))

/-- `True` iff the `<stage>_status` of `st` is `failed` and no other
stage status is `failed`. -/
def onlyFailedAtState (s : StudentState) (st : Stage) : Bool :=
  match st with
  | .ocr =>
      s.ocr_status == .failed && !(s.chunking_status == .failed)
        && !(s.qa_status == .failed) && !(s.grading_status == .failed)
  | .chunking =>
      !(s.ocr_status == .failed) && s.chunking_status == .failed
        && !(s.qa_status == .failed) && !(s.grading_status == .failed)
  | .qa =>
      !(s.ocr_status == .failed) && !(s.chunking_status == .failed)
        && s.qa_status == .failed && !(s.grading_status == .failed)
  | .grading =>
      !(s.ocr_status == .failed) && !(s.chunking_status == .failed)
        && !(s.qa_status == .failed) && s.grading_status == .failed

/-- `True` iff at least one of the four per-stage statuses is `failed`. -/
def hasFailedStage (s : StudentState) : Bool :=
  s.ocr_status == .failed || s.chunking_status == .failed
    || s.qa_status == .failed || s.grading_status == .failed

/-- Number of stages whose status is not `completed` and is `pending` or
`processing` (the quantity the spec asserts to be exactly one). -/
def activeStageCount (s : StudentState) : Nat :=
  ([Stage.ocr, .chunking, .qa, .grading].filter (fun t =>
      !(stageStatusOf s t == .completed)
        && (stageStatusOf s t == .pending
              || stageStatusOf s t == .processing))).length

/-- `overall_status == completed`, the flag counted into
`students_completed`. -/
def isTermC (s : StudentState) : Bool := s.overall_status == .completed

/-- `overall_status == failed`, the flag counted into `students_failed`. -/
def isTermF (s : StudentState) : Bool := s.overall_status == .failed

/-- `PipelineJob` of `pipeline/models.py`.  The wall-clock timestamp
columns (`created_at`, `stamp_started_at`, …) are opaque environment
data and irrelevant to the verified claims; they are represented as
`Option Nat` values that the operations never inspect. -/
structure PipelineJob where
  job_id : String
  question_paper_uuid : String
  pdf_file_path : Option String
  status : JobStatus
  discovered_roll_numbers : List String
  total_students : Nat
  students_completed : Nat
  students_failed : Nat
  created_at : Option Nat
  completed_at : Option Nat
  error_message : Option String
deriving DecidableEq, Repr

/-- `PipelineJob.get_completion_rate` (`pipeline/models.py`, lines
41-44).  Python's float arithmetic is modelled by exact rationals;
`round(x, 1)` becomes rounding of `10 * x` to an integer, divided by
10. -/
def round1 (q : ℚ) : ℚ := (round (q * 10) : ℤ) / 10

/-- `get_completion_rate`: guarded percentage of completed students. -/
def get_completion_rate (j : PipelineJob) : ℚ :=
  if 0 < j.total_students then
    round1 (((j.students_completed : ℚ) / (j.total_students : ℚ)) * 100)
  else 0

/-- The `PipelineJob.objects.create(...)` call of `start_pdf_pipeline`
(`pipeline/views.py`, lines 46-51): a fresh job record with status
`initiated` and all model defaults. -/
def mkJob (job_id question_paper_uuid : String)
    (pdf_file_path : Option String) : PipelineJob :=
  { job_id := job_id
    question_paper_uuid := question_paper_uuid
    pdf_file_path := pdf_file_path
    status := .initiated
    discovered_roll_numbers := []
    total_students := 0
    students_completed := 0
    students_failed := 0
    created_at := none
    completed_at := none
    error_message := none }

/-- `StudentQueue` of `pipeline/models.py`.  The six state-machine
columns live in the `state` sub-record (`StudentState`); the remaining
columns keep their Python names.  The eight per-stage timestamp columns
are environment data never inspected by the verified operations and are
represented by a single list of optional values. -/
structure StudentQueue where
  pipeline_job : String
  question_paper_uuid : String
  roll_no : String
  state : StudentState
  created_at : Nat
  ocr_started_at : Option Nat
  ocr_completed_at : Option Nat
  chunking_started_at : Option Nat
  chunking_completed_at : Option Nat
  qa_started_at : Option Nat
  qa_completed_at : Option Nat
  grading_started_at : Option Nat
  grading_completed_at : Option Nat
  error_message : Option String
  retry_count : Nat
  max_retries : Nat
  priority : Int
deriving DecidableEq, Repr

/-- A freshly discovered queue entry: all model defaults
(`current_stage = discovered`, every status `pending`, `retry_count =
0`, `max_retries = 3`, `priority = 0`), as created in bulk at discovery
time. -/
def mkEntry (job_id question_paper_uuid roll_no : String) : StudentQueue :=
  { pipeline_job := job_id
    question_paper_uuid := question_paper_uuid
    roll_no := roll_no
    state :=
      { current_stage := .discovered
        overall_status := .pending
        ocr_status := .pending
        chunking_status := .pending
        qa_status := .pending
        grading_status := .pending }
    created_at := 0
    ocr_started_at := none
    ocr_completed_at := none
    chunking_started_at := none
    chunking_completed_at := none
    qa_started_at := none
    qa_completed_at := none
    grading_started_at := none
    grading_completed_at := none
    error_message := none
    retry_count := 0
    max_retries := 3
    priority := 0 }

/-- The mutation performed by `retry_failed_student`
(`pipeline/views.py`, lines 259-279) on the student row: the
state-machine reset of `retryCore` plus `retry_count = 0` and
`error_message = None`.  No other column is written. -/
def retryReset (e : StudentQueue) : StudentQueue :=
  { e with state := retryCore e.state, retry_count := 0, error_message := none }

/-- The per-row mutation of the `reset_failed_students` management
command (lines 27-45). -/
def cmdReset (e : StudentQueue) : StudentQueue :=
  { e with state := cmdResetCore e.state, retry_count := 0, error_message := none }

/-- The per-row mutation of the admin action `retry_failed_students`
(`pipeline/admin.py`, lines 113-138). -/
def adminReset (e : StudentQueue) : StudentQueue :=
  { e with state := adminResetCore e.state, retry_count := 0, error_message := none }

/-- `ProcessingLog` of `pipeline/models.py`.  The foreign key is
modelled by the (question_paper_uuid, roll_no) pair of the referenced
row; `processing_duration` (a Python float of seconds) is modelled as
an optional integer number of milliseconds, which the verified claims
never inspect. -/
structure ProcessingLog where
  student_queue : Option (String × String)
  stage : String
  status : String
  message : String
  timestamp : Int
  processing_duration : Option Int
  roll_no : Option String
  question_paper_uuid : Option String
deriving DecidableEq, Repr

/-- A log row as created by `ProcessingLog.objects.create(...)`:
`auto_now_add` supplies the timestamp, here passed explicitly. -/
def mkLog (ref : Option (String × String)) (stage status message : String)
    (timestamp : Int) : ProcessingLog :=
  { student_queue := ref
    stage := stage
    status := status
    message := message
    timestamp := timestamp
    processing_duration := none
    roll_no := none
    question_paper_uuid := none }

/-- Seconds per day, the unit of `timedelta(days=days)`. -/
def secondsPerDay : Int := 86400

/-- Default of the `--days` argument of `cleanup_old_logs`. -/
def cleanupDefaultDays : Nat := 30

/-- `Command.handle` of `cleanup_old_logs` (lines 18-28): compute
`cutoff_date = now - timedelta(days=days)`, count the logs strictly
older than the cutoff, delete exactly those; returns the kept logs and
the deleted count. -/
def cleanup_old_logs (db : List ProcessingLog) (now : Int) (days : Nat) :
    List ProcessingLog × Nat :=
  let cutoff_date := now - (days : Int) * secondsPerDay
  let old_logs := db.filter (fun l => l.timestamp < cutoff_date)
  (db.filter (fun l => ¬ l.timestamp < cutoff_date), old_logs.length)

/-- The structured results of the `retry_failed_student` control-surface
endpoint (`pipeline/views.py`, lines 245-300): HTTP 404, HTTP 400, or
the success payload carrying the student's new `current_stage` and
`overall_status`. -/
inductive RetryResponse where
  | notFound
  | invalidState
  | success (current_stage : CurrentStage) (overall_status : Status)
deriving DecidableEq, Repr

/-- The row-lookup predicate of
`StudentQueue.objects.get(question_paper_uuid=..., roll_no=...)`. -/
def matchesStudent (question_paper_uuid roll_no : String)
    (e : StudentQueue) : Bool :=
  e.question_paper_uuid == question_paper_uuid && e.roll_no == roll_no

/-- `retry_failed_student` (`pipeline/views.py`, lines 245-300) acting
on the student table: look up the row by (question_paper_uuid,
roll_no); 404 if absent; 400 and no mutation unless
`overall_status == failed`; otherwise apply `retryReset` to that row
and answer with its new stage and status.  (The worker restart and the
log insert are handled at the `PipelineState` level.) -/
def retry_failed_student (db : List StudentQueue)
    (question_paper_uuid roll_no : String) :
    RetryResponse × List StudentQueue :=
  match db with
  | [] => (.notFound, [])
  | e :: rest =>
      if matchesStudent question_paper_uuid roll_no e then
        if e.state.overall_status == .failed then
          let e2 := retryReset e
          (.success e2.state.current_stage e2.state.overall_status, e2 :: rest)
        else
          (.invalidState, e :: rest)
      else
        let r := retry_failed_student rest question_paper_uuid roll_no
        (r.1, e :: r.2)

/-- The structured results of `start_pdf_pipeline`
(`pipeline/views.py`, lines 17-69): HTTP 400 for a missing
`question_paper_uuid`, HTTP 400 for a duplicate `job_id`, or the
success payload repeating the job id, the uuid and the job status. -/
inductive StartResponse where
  | missingUuid
  | duplicateJob (job_id : String)
  | started (job_id question_paper_uuid : String) (status : JobStatus)
deriving DecidableEq, Repr

/-- `start_pdf_pipeline` (`pipeline/views.py`, lines 17-69) acting on
the job table.  The `job_id` argument is the request's job id (or the
generated `job_<uuid4>` fallback, supplied by the environment).  It
rejects a missing `question_paper_uuid`, rejects an existing `job_id`
without touching the table, and otherwise appends exactly one fresh
job with status `initiated`. -/
def start_pdf_pipeline (db : List PipelineJob) (job_id : String)
    (question_paper_uuid : Option String) (pdf_file_path : Option String) :
    StartResponse × List PipelineJob :=
  match question_paper_uuid with
  | none => (.missingUuid, db)
  | some uuid =>
      if db.any (fun j => j.job_id == job_id) then
        (.duplicateJob job_id, db)
      else
        (.started job_id uuid .initiated,
          db ++ [mkJob job_id uuid pdf_file_path])

/-- The whole orchestrator store: the job row of one exam run, its
student queue and the processing log.  (Jobs are independent of each
other; one job suffices for the per-job claims.) -/
structure PipelineState where
  job : PipelineJob
  students : List StudentQueue
  logs : List ProcessingLog
deriving DecidableEq, Repr

/-- State right after `PipelineJob.objects.create(status='initiated')`. -/
def initState (job_id question_paper_uuid : String)
    (pdf_file_path : Option String) : PipelineState :=
  { job := mkJob job_id question_paper_uuid pdf_file_path
    students := []
    logs := [] }

/-- Modelled from the spec: `RecordStudentTerminal(job_id, outcome)`
(§4.1), part of the absent `pipeline/tasks.py`: atomically increment
`students_completed` or `students_failed`; when the two counters reach
`total_students`, the job transitions to `completed`. -/
def recordStudentTerminal (j : PipelineJob) (outcomeCompleted : Bool) :
    PipelineJob :=
  let j2 :=
    if outcomeCompleted then
      { j with students_completed := j.students_completed + 1 }
    else
      { j with students_failed := j.students_failed + 1 }
  if j2.students_completed + j2.students_failed == j2.total_students then
    { j2 with status := .completed }
  else j2

/-- Replace the element at index `i` by its image under `f` (the list
analogue of a one-row UPDATE). -/
def updAt (f : α → α) : Nat → List α → List α
  | _, [] => []
  | 0, x :: xs => f x :: xs
  | n + 1, x :: xs => x :: updAt f n xs

/-- The operations that mutate the orchestrator store.  `claim`,
`complete`, `failTransient` and `failPermanent` are the worker
transitions of §4.2 (modelled from the spec, `pipeline/tasks.py` being
absent from `src/`); `discover` / `discoverFail` are the discovery
bootstrap of §4.4; `retry` is `retry_failed_student` of
`pipeline/views.py`. -/
inductive Op where
  | discover (rolls : List String)
  | discoverFail (msg : String)
  | claim (i : Nat) (st : Stage)
  | complete (i : Nat) (st : Stage)
  | failTransient (i : Nat) (st : Stage)
  | failPermanent (i : Nat) (st : Stage) (nonRetryable : Bool) (msg : String)
  | retry (question_paper_uuid roll_no : String)
deriving DecidableEq, Repr

/-- Whether an operation is the operator retry. -/
def Op.isRetry : Op → Bool
  | .retry _ _ => true
  | _ => false

/-- Apply a guarded per-row transition to student `i`, leaving the state
untouched when the row is absent or the guard refuses; appends one
processing-log row for the transition (§4.5). -/
def stepStudent (g : StudentQueue → Bool) (f : StudentQueue → StudentQueue)
    (jobUpd : PipelineJob → PipelineJob) (stage logStatus : String)
    (i : Nat) (ps : PipelineState) : PipelineState :=
  match ps.students[i]? with
  | some e =>
      if g e then
        { job := jobUpd ps.job
          students := updAt f i ps.students
          logs := ps.logs
            ++ [mkLog (some (e.question_paper_uuid, e.roll_no))
                  stage logStatus "stage transition" 0] }
      else ps
  | none => ps

/-- Modelled from the spec: `RegisterDiscovery` (§4.1), caller side in
the absent `pipeline/tasks.py`: set the roster and `total_students`,
create one queue entry per roll number, transition the job to the
active pipeline phase.  Only meaningful before the pipeline phase. -/
def discoverOp (rolls : List String) (ps : PipelineState) : PipelineState :=
  if ps.job.status == .initiated || ps.job.status == .stamp_processing then
    { job :=
        { ps.job with
          discovered_roll_numbers := rolls
          total_students := rolls.length
          status := .pipeline_active }
      students := rolls.map (mkEntry ps.job.job_id ps.job.question_paper_uuid)
      logs := ps.logs ++ [mkLog none "discovery" "completed" "roster ready" 0] }
  else ps

/-- Modelled from the spec: discovery failure is job-fatal (§4.4): the
job goes straight to `failed` with the error recorded; no entry is
created. -/
def discoverFailOp (msg : String) (ps : PipelineState) : PipelineState :=
  if ps.job.status == .initiated || ps.job.status == .stamp_processing then
    { ps with
      job := { ps.job with status := .failed, error_message := some msg }
      logs := ps.logs ++ [mkLog none "discovery" "failed" msg 0] }
  else ps

/-- Modelled from the spec: the claim transition (§5) on the store. -/
def claimOp (i : Nat) (st : Stage) : PipelineState → PipelineState :=
  stepStudent (fun e => claimGuard st e.state)
    (fun e => { e with state := claimCore st e.state })
    id "claim" "processing" i

/-- Modelled from the spec: the success transition (§4.2) on the store;
completion of the last stage records the terminal outcome on the job. -/
def completeOp (i : Nat) (st : Stage) : PipelineState → PipelineState :=
  stepStudent (fun e => workGuard st e.state)
    (fun e => { e with state := completeCore st e.state })
    (fun j => if st == .grading then recordStudentTerminal j true else j)
    "complete" "completed" i

/-- Modelled from the spec: the transient-failure transition (§4.2):
back to `pending` on the same stage while `retry_count < max_retries`,
incrementing `retry_count`. -/
def failTransientOp (i : Nat) (st : Stage) : PipelineState → PipelineState :=
  stepStudent
    (fun e => workGuard st e.state && decide (e.retry_count < e.max_retries))
    (fun e =>
      { e with
        state := failTransientCore st e.state
        retry_count := e.retry_count + 1 })
    id "retry" "pending" i

/-- Modelled from the spec: the permanent-failure transition (§4.2):
when retries are exhausted or the failure is non-retryable, the student
fails terminally and the outcome is recorded on the job. -/
def failPermanentOp (i : Nat) (st : Stage) (nonRetryable : Bool)
    (msg : String) : PipelineState → PipelineState :=
  stepStudent
    (fun e => workGuard st e.state
      && (nonRetryable || decide (e.max_retries ≤ e.retry_count)))
    (fun e =>
      { e with
        state := failPermanentCore st e.state
        error_message := some msg })
    (fun j => recordStudentTerminal j false)
    "failed" "failed" i

/-- `retry_failed_student` on the store: on success the row is reset and
a log row is appended (`pipeline/views.py`, lines 281-286); the error
paths do not mutate anything. -/
def retryOp (question_paper_uuid roll_no : String) (ps : PipelineState) :
    PipelineState :=
  let r := retry_failed_student ps.students question_paper_uuid roll_no
  match r.1 with
  | .success _ _ =>
      { ps with
        students := r.2
        logs := ps.logs
          ++ [mkLog (some (question_paper_uuid, roll_no)) "retry" "initiated"
                "Manual retry initiated" 0] }
  | _ => ps

/-- Dispatch an operation. -/
def applyOp : Op → PipelineState → PipelineState
  | .discover rolls, ps => discoverOp rolls ps
  | .discoverFail msg, ps => discoverFailOp msg ps
  | .claim i st, ps => claimOp i st ps
  | .complete i st, ps => completeOp i st ps
  | .failTransient i st, ps => failTransientOp i st ps
  | .failPermanent i st nr msg, ps => failPermanentOp i st nr msg ps
  | .retry uuid roll, ps => retryOp uuid roll ps

/-- States reachable from a fresh job through operations satisfying
`allowed`. -/
inductive ReachVia (allowed : Op → Prop) : PipelineState → Prop where
  | init (job_id question_paper_uuid : String) (pdf_file_path : Option String) :
      ReachVia allowed (initState job_id question_paper_uuid pdf_file_path)
  | step (op : Op) (ps : PipelineState) (hop : allowed op)
      (h : ReachVia allowed ps) : ReachVia allowed (applyOp op ps)

/-- States reachable through any operation. -/
def Reach (ps : PipelineState) : Prop := ReachVia (fun _ => True) ps

/-- States reachable without the operator retry. -/
def ReachNoRetry (ps : PipelineState) : Prop :=
  ReachVia (fun op => op.isRetry = false) ps

/-- Per-student well-formedness of the whole store: every queue entry's
state-machine columns are consistent (`stateOk`). -/
def InvS (ps : PipelineState) : Prop :=
  ∀ e ∈ ps.students, stateOk e.state = true

/-- Counting invariant of the job row: `total_students` is the roster
size, the two counters equal the number of terminal students of each
kind, a `completed` job has exhausted its roster, and before discovery
the queue is empty. -/
def InvC (ps : PipelineState) : Prop :=
  ps.job.total_students = ps.students.length
  ∧ ps.job.students_completed
      = ps.students.countP (fun e => isTermC e.state)
  ∧ ps.job.students_failed
      = ps.students.countP (fun e => isTermF e.state)
  ∧ (ps.job.status = .completed →
      ps.job.students_completed + ps.job.students_failed
        = ps.job.total_students)
  ∧ ((ps.job.status = .initiated ∨ ps.job.status = .stamp_processing) →
      ps.students = [])

/-- The relation behind `StudentQueue.Meta.ordering =
['-priority', 'created_at']` (`pipeline/models.py`, lines 110-112):
higher `priority` first, ties broken by earlier `created_at` (FIFO). -/
def queueRel (a b : StudentQueue) : Prop :=
  b.priority < a.priority
    ∨ (a.priority = b.priority ∧ a.created_at ≤ b.created_at)

instance : DecidableRel queueRel := fun a b =>
  inferInstanceAs (Decidable (b.priority < a.priority
    ∨ (a.priority = b.priority ∧ a.created_at ≤ b.created_at)))

instance : IsTotal StudentQueue queueRel := ⟨by
  intro a b
  rcases lt_trichotomy a.priority b.priority with h | h | h
  · exact Or.inr (Or.inl h)
  · rcases le_total a.created_at b.created_at with hc | hc
    · exact Or.inl (Or.inr ⟨h, hc⟩)
    · exact Or.inr (Or.inr ⟨h.symm, hc⟩)
  · exact Or.inl (Or.inl h)⟩

instance : IsTrans StudentQueue queueRel := ⟨by
  intro a b c hab hbc
  rcases hab with h1 | ⟨h1, h1c⟩ <;> rcases hbc with h2 | ⟨h2, h2c⟩
  · exact Or.inl (lt_trans h2 h1)
  · exact Or.inl (by omega)
  · exact Or.inl (by omega)
  · exact Or.inr ⟨h1.trans h2, le_trans h1c h2c⟩⟩

/-- The batch a stage worker lists: the rows with that stage's status
`pending`, in the model's `Meta.ordering` (priority descending, then
`created_at` ascending). -/
def pendingBatch (db : List StudentQueue) (st : Stage) : List StudentQueue :=
  List.insertionSort queueRel
    (db.filter (fun e => stageStatusOf e.state st == .pending))

/-- Modelled from the spec: the storage-level compare-and-swap of the
claim protocol (§5), implemented in the absent `pipeline/tasks.py`: the
conditional update succeeds (affects one row) only if the row status is
still `pending`, in which case it becomes `processing`. -/
def casClaim (s : Status) : Status × Bool :=
  if s == .pending then (.processing, true) else (s, false)

/-- Modelled from the spec: `n` workers attempting to claim the same
entry.  The storage layer serialises the atomic conditional updates, so
a concurrent execution is some sequence of `casClaim` steps; the second
component counts how many claimants succeeded. -/
def runClaims : Status → Nat → Status × Nat
  | s, 0 => (s, 0)
  | s, n + 1 =>
      let r := casClaim s
      let t := runClaims r.1 n
      (t.1, (if r.2 then 1 else 0) + t.2)

/-- A failed entry whose qa stage is the failed one, used to witness C2. -/
def c2Entry : StudentQueue :=
  { mkEntry "job_w2" "qp_w2" "7" with
    state :=
      { current_stage := .failed
        overall_status := .failed
        ocr_status := .completed
        chunking_status := .completed
        qa_status := .failed
        grading_status := .pending }
    error_message := some "qa timeout"
    retry_count := 3 }

/-- A pending (non-failed) entry used to witness C3. -/
def c3Entry : StudentQueue := mkEntry "job_w3" "qp_w3" "1"

/-- An existing job used to witness C5. -/
def c5Job : PipelineJob := mkJob "job_a" "qp_w5" none

/-- Two queue entries with distinct priorities used to witness C7. -/
def c7Lo : StudentQueue := mkEntry "job_w7" "qp_w7" "1"

/-- A higher-priority, later-created entry used to witness C7. -/
def c7Hi : StudentQueue :=
  { mkEntry "job_w7" "qp_w7" "2" with priority := 5, created_at := 9 }

/-- A two-row log table used to witness C9. -/
def c9Old : ProcessingLog := mkLog none "ocr" "completed" "old row" 0

/-- A fresh log row used to witness C9. -/
def c9New : ProcessingLog := mkLog none "ocr" "completed" "new row" 5000000

/-- A job with 1 of 4 students completed used to witness C10. -/
def c10Job : PipelineJob :=
  { mkJob "job_w10" "qp_w10" none with
    total_students := 4, students_completed := 1, students_failed := 2 }

/-- A failed entry with two failed stage statuses (ocr and grading): the
admin action and the endpoint disagree on it. -/
def c6Multi : StudentQueue :=
  { mkEntry "job_c6" "qp_c6" "1" with
    state :=
      { current_stage := .failed
        overall_status := .failed
        ocr_status := .failed
        chunking_status := .pending
        qa_status := .pending
        grading_status := .failed } }

/-- A failed entry with no failed stage status: the management command
and the endpoint disagree on it. -/
def c6None : StudentQueue :=
  { mkEntry "job_c6" "qp_c6" "2" with
    state :=
      { current_stage := .failed
        overall_status := .failed
        ocr_status := .pending
        chunking_status := .pending
        qa_status := .pending
        grading_status := .pending } }

/-- A failed entry whose single failed stage is qa, used to witness C6. -/
def c6Single : StudentQueue :=
  { mkEntry "job_c6" "qp_c6" "3" with
    state :=
      { current_stage := .failed
        overall_status := .failed
        ocr_status := .completed
        chunking_status := .completed
        qa_status := .failed
        grading_status := .pending } }

/-- The roster used by the C1 and C4 traces. -/
def c1Trace : PipelineState :=
  applyOp (.failPermanent 0 .ocr true "ocr failed again")
    (applyOp (.claim 0 .ocr)
      (applyOp (.retry "qp_c1" "1")
        (applyOp (.failPermanent 0 .ocr true "ocr failed")
          (applyOp (.claim 0 .ocr)
            (applyOp (.discover ["1"])
              (initState "job_c1" "qp_c1" none))))))

/-- The state right after discovery of one student, used by C4. -/
def c4Disco : PipelineState :=
  applyOp (.discover ["1"]) (initState "job_c4" "qp_c4" none)

theorem claimCore_stateOk (st : Stage) (s : StudentState)
    (hg : claimGuard st s = true) (hok : stateOk s = true) :
    stateOk (claimCore st s) = true := by
  obtain ⟨c, o, a, b, d, e⟩ := s
  cases st <;> cases c <;>
    simp_all [claimGuard, stateOk, claimCore, setStageStatus,
      pendingStage, processingStage, stageStatusOf]

theorem completeCore_stateOk (st : Stage) (s : StudentState)
    (hg : workGuard st s = true) (hok : stateOk s = true) :
    stateOk (completeCore st s) = true := by
  obtain ⟨c, o, a, b, d, e⟩ := s
  cases st <;> cases c <;>
    simp_all [workGuard, stateOk, completeCore, nextStage, setStageStatus,
      pendingStage, processingStage, stageStatusOf]

theorem failTransientCore_stateOk (st : Stage) (s : StudentState)
    (hg : workGuard st s = true) (hok : stateOk s = true) :
    stateOk (failTransientCore st s) = true := by
  obtain ⟨c, o, a, b, d, e⟩ := s
  cases st <;> cases c <;>
    simp_all [workGuard, stateOk, failTransientCore, setStageStatus,
      pendingStage, processingStage, stageStatusOf]

theorem failPermanentCore_stateOk (st : Stage) (s : StudentState)
    (hg : workGuard st s = true) (hok : stateOk s = true) :
    stateOk (failPermanentCore st s) = true := by
  obtain ⟨c, o, a, b, d, e⟩ := s
  cases st <;> cases c <;>
    simp_all [workGuard, stateOk, failPermanentCore, setStageStatus,
      pendingStage, processingStage, stageStatusOf]

theorem retryCore_stateOk (s : StudentState)
    (hf : s.overall_status = .failed) (hok : stateOk s = true) :
    stateOk (retryCore s) = true := by
  obtain ⟨c, o, a, b, d, e⟩ := s
  obtain rfl : o = Status.failed := hf
  cases c <;> revert hok <;> revert a b d e <;> decide

theorem claimCore_flags (st : Stage) (s : StudentState)
    (hg : claimGuard st s = true) (hok : stateOk s = true) :
    isTermC s = false ∧ isTermF s = false
      ∧ isTermC (claimCore st s) = false ∧ isTermF (claimCore st s) = false := by
  obtain ⟨c, o, a, b, d, e⟩ := s
  cases st <;> cases c <;>
    simp_all [claimGuard, stateOk, claimCore, isTermC, isTermF,
      setStageStatus, pendingStage, processingStage, stageStatusOf]

theorem completeCore_flags (st : Stage) (s : StudentState)
    (hg : workGuard st s = true) (hok : stateOk s = true) :
    isTermC s = false ∧ isTermF s = false
      ∧ isTermC (completeCore st s) = (st == .grading)
      ∧ isTermF (completeCore st s) = false := by
  obtain ⟨c, o, a, b, d, e⟩ := s
  cases st <;> cases c <;>
    simp_all [workGuard, stateOk, completeCore, nextStage, isTermC, isTermF,
      setStageStatus, pendingStage, processingStage, stageStatusOf]

theorem failTransientCore_flags (st : Stage) (s : StudentState)
    (hg : workGuard st s = true) (hok : stateOk s = true) :
    isTermC s = false ∧ isTermF s = false
      ∧ isTermC (failTransientCore st s) = false
      ∧ isTermF (failTransientCore st s) = false := by
  obtain ⟨c, o, a, b, d, e⟩ := s
  cases st <;> cases c <;>
    simp_all [workGuard, stateOk, failTransientCore, isTermC, isTermF,
      setStageStatus, pendingStage, processingStage, stageStatusOf]

theorem failPermanentCore_flags (st : Stage) (s : StudentState)
    (hg : workGuard st s = true) (hok : stateOk s = true) :
    isTermC s = false ∧ isTermF s = false
      ∧ isTermC (failPermanentCore st s) = false
      ∧ isTermF (failPermanentCore st s) = true := by
  obtain ⟨c, o, a, b, d, e⟩ := s
  cases st <;> cases c <;>
    simp_all [workGuard, stateOk, failPermanentCore, isTermC, isTermF,
      setStageStatus, pendingStage, processingStage, stageStatusOf]

theorem retryCore_onlyFailed (st : Stage) (s : StudentState)
    (h : onlyFailedAtState s st = true) :
    retryCore s
      = { setStageStatus s st .pending with
          current_stage := pendingStage st, overall_status := .pending } := by
  obtain ⟨c, o, a, b, d, e⟩ := s
  cases st <;>
    simp_all [onlyFailedAtState, retryCore, setStageStatus, pendingStage]

theorem cmdResetCore_eq_retryCore (s : StudentState)
    (h : hasFailedStage s = true) :
    cmdResetCore s = retryCore s := by
  obtain ⟨c, o, a, b, d, e⟩ := s
  simp only [hasFailedStage, Bool.or_eq_true, beq_iff_eq] at h
  by_cases hE : e = Status.failed <;>
    by_cases hD : d = Status.failed <;>
      by_cases hB : b = Status.failed <;>
        by_cases hA : a = Status.failed <;>
          simp_all [cmdResetCore, retryCore]

theorem adminResetCore_onlyFailed (st : Stage) (s : StudentState)
    (h : onlyFailedAtState s st = true) :
    adminResetCore s = retryCore s := by
  obtain ⟨c, o, a, b, d, e⟩ := s
  cases st <;> simp_all [onlyFailedAtState, adminResetCore, retryCore]

theorem length_updAt (f : α → α) : ∀ (i : Nat) (l : List α),
    (updAt f i l).length = l.length := by
  intro i l
  induction l generalizing i with
  | nil => cases i <;> rfl
  | cons x xs ih => cases i with
    | zero => rfl
    | succ n => simpa [updAt] using ih n

theorem mem_of_idx : ∀ (l : List α) (i : Nat) (x : α),
    l[i]? = some x → x ∈ l := by
  intro l
  induction l with
  | nil => intro i x h; simp at h
  | cons y ys ih =>
      intro i x h
      cases i with
      | zero => simp at h; simp [h]
      | succ n =>
          simp only [List.getElem?_cons_succ] at h
          exact List.mem_cons_of_mem y (ih n x h)

theorem mem_updAt (f : α → α) : ∀ (i : Nat) (l : List α) (x : α),
    x ∈ updAt f i l → x ∈ l ∨ ∃ y, l[i]? = some y ∧ x = f y := by
  intro i l
  induction l generalizing i with
  | nil => intro x h; cases i <;> simp [updAt] at h
  | cons z zs ih =>
      intro x h
      cases i with
      | zero =>
          rcases List.mem_cons.mp h with h1 | h1
          · exact Or.inr ⟨z, by simp, h1⟩
          · exact Or.inl (List.mem_cons_of_mem z h1)
      | succ n =>
          rcases List.mem_cons.mp h with h1 | h1
          · exact Or.inl (by simp [h1])
          · rcases ih n x h1 with h2 | ⟨y, hy, hxy⟩
            · exact Or.inl (List.mem_cons_of_mem z h2)
            · exact Or.inr ⟨y, by simpa using hy, hxy⟩

theorem countP_updAt_eq (p : α → Bool) (f : α → α) :
    ∀ (i : Nat) (l : List α) (x : α), l[i]? = some x → p (f x) = p x →
      (updAt f i l).countP p = l.countP p := by
  intro i l
  induction l generalizing i with
  | nil => intro x h; simp at h
  | cons z zs ih =>
      intro x h hp
      cases i with
      | zero =>
          simp only [List.getElem?_cons_zero, Option.some_inj] at h
          subst h
          simp [updAt, List.countP_cons, hp]
      | succ n =>
          simp only [List.getElem?_cons_succ] at h
          simp [updAt, List.countP_cons, ih n x h hp]

theorem countP_updAt_add (p : α → Bool) (f : α → α) :
    ∀ (i : Nat) (l : List α) (x : α), l[i]? = some x →
      p x = false → p (f x) = true →
      (updAt f i l).countP p = l.countP p + 1 := by
  intro i l
  induction l generalizing i with
  | nil => intro x h; simp at h
  | cons z zs ih =>
      intro x h hp hpf
      cases i with
      | zero =>
          simp only [List.getElem?_cons_zero, Option.some_inj] at h
          subst h
          simp [updAt, List.countP_cons, hp, hpf]
      | succ n =>
          simp only [List.getElem?_cons_succ] at h
          simp [updAt, List.countP_cons, ih n x h hp hpf]
          omega

theorem countP_disjoint_le (p q : α → Bool)
    (hpq : ∀ x, p x = true → q x = false) :
    ∀ l : List α, l.countP p + l.countP q ≤ l.length := by
  intro l
  induction l with
  | nil => simp
  | cons z zs ih =>
      simp only [List.countP_cons, List.length_cons]
      cases hz : p z
      · cases hq : q z <;> simp [hz, hq] <;> omega
      · have hq := hpq z hz
        simp [hz, hq]; omega

theorem countP_disjoint_lt (p q : α → Bool)
    (hpq : ∀ x, p x = true → q x = false) :
    ∀ (i : Nat) (l : List α) (x : α), l[i]? = some x →
      p x = false → q x = false →
      l.countP p + l.countP q < l.length := by
  intro i l
  induction l generalizing i with
  | nil => intro x h; simp at h
  | cons z zs ih =>
      intro x h hp hq
      cases i with
      | zero =>
          simp only [List.getElem?_cons_zero, Option.some_inj] at h
          subst h
          have := countP_disjoint_le p q hpq zs
          simp [List.countP_cons, hp, hq]
          omega
      | succ n =>
          simp only [List.getElem?_cons_succ] at h
          have := ih n x h hp hq
          simp only [List.countP_cons, List.length_cons]
          cases hz : p z
          · cases hz2 : q z <;> simp <;> omega
          · have := hpq z hz
            simp [this]; omega

theorem countP_map_zero (p : β → Bool) (g : α → β)
    (h : ∀ a, p (g a) = false) :
    ∀ l : List α, (l.map g).countP p = 0 := by
  intro l
  induction l with
  | nil => rfl
  | cons z zs ih => simp [List.countP_cons, h, ih]

theorem InvS_stepStudent (g : StudentQueue → Bool)
    (f : StudentQueue → StudentQueue) (jobUpd : PipelineJob → PipelineJob)
    (stage logStatus : String) (i : Nat) (ps : PipelineState)
    (hf : ∀ e, g e = true → stateOk e.state = true →
      stateOk ((f e).state) = true)
    (h : InvS ps) : InvS (stepStudent g f jobUpd stage logStatus i ps) := by
  unfold stepStudent
  split
  case h_2 => exact h
  case h_1 e hE =>
      by_cases hg : g e = true
      · rw [if_pos hg]
        intro x hx
        have hx2 : x ∈ updAt f i ps.students := hx
        rcases mem_updAt f i ps.students x hx2 with hm | ⟨y, hy, hxy⟩
        · exact h x hm
        · rw [hE] at hy
          obtain rfl : e = y := Option.some_inj.mp hy
          subst hxy
          exact hf e hg (h e (mem_of_idx _ _ _ hE))
      · rw [if_neg hg]
        exact h

theorem retry_fs_stateOk (question_paper_uuid roll_no : String) :
    ∀ db : List StudentQueue, (∀ e ∈ db, stateOk e.state = true) →
      ∀ x ∈ (retry_failed_student db question_paper_uuid roll_no).2,
        stateOk x.state = true := by
  intro db
  induction db with
  | nil => intro _ x hx; simp [retry_failed_student] at hx
  | cons e rest ih =>
      intro h x hx
      unfold retry_failed_student at hx
      by_cases hm : matchesStudent question_paper_uuid roll_no e = true
      · simp only [hm, if_true] at hx
        by_cases hfail : e.state.overall_status == .failed
        · simp only [hfail, if_true] at hx
          rcases List.mem_cons.mp hx with rfl | hx2
          · exact retryCore_stateOk e.state (beq_iff_eq.mp hfail)
              (h e (List.mem_cons_self e rest))
          · exact h x (List.mem_cons_of_mem e hx2)
        · simp only [hfail] at hx
          simp only [Bool.false_eq_true, if_false] at hx
          exact h x hx
      · simp only [hm] at hx
        simp only [Bool.false_eq_true, if_false] at hx
        rcases List.mem_cons.mp hx with rfl | hx2
        · exact h x (List.mem_cons_self x rest)
        · exact ih (fun y hy => h y (List.mem_cons_of_mem e hy)) x hx2

theorem InvS_applyOp (op : Op) (ps : PipelineState) (h : InvS ps) :
    InvS (applyOp op ps) := by
  cases op with
  | discover rolls =>
      simp only [applyOp, discoverOp]
      by_cases hst : (ps.job.status == JobStatus.initiated
          || ps.job.status == JobStatus.stamp_processing) = true
      · simp only [hst, if_true]
        intro x hx
        simp only at hx
        rcases List.mem_map.mp hx with ⟨r, _, rfl⟩
        rfl
      · simp only [hst]
        simp only [Bool.false_eq_true, if_false]
        exact h
  | discoverFail msg =>
      simp only [applyOp, discoverFailOp]
      by_cases hst : (ps.job.status == JobStatus.initiated
          || ps.job.status == JobStatus.stamp_processing) = true
      · simp only [hst, if_true]; exact h
      · simp only [hst]
        simp only [Bool.false_eq_true, if_false]
        exact h
  | claim i st =>
      exact InvS_stepStudent _ _ _ _ _ i ps
        (fun e hg hok => claimCore_stateOk st e.state hg hok) h
  | complete i st =>
      exact InvS_stepStudent _ _ _ _ _ i ps
        (fun e hg hok => completeCore_stateOk st e.state hg hok) h
  | failTransient i st =>
      exact InvS_stepStudent _ _ _ _ _ i ps
        (fun e hg hok => failTransientCore_stateOk st e.state
          (Bool.and_eq_true_iff.mp hg).1 hok) h
  | failPermanent i st nr msg =>
      exact InvS_stepStudent _ _ _ _ _ i ps
        (fun e hg hok => failPermanentCore_stateOk st e.state
          (Bool.and_eq_true_iff.mp hg).1 hok) h
  | retry uuid roll =>
      simp only [applyOp, retryOp]
      cases hr : (retry_failed_student ps.students uuid roll).1 with
      | success cs os =>
          intro x hx
          simp only at hx
          exact retry_fs_stateOk uuid roll ps.students h x hx
      | notFound => exact h
      | invalidState => exact h

theorem InvS_reach {allowed : Op → Prop} (ps : PipelineState)
    (h : ReachVia allowed ps) : InvS ps := by
  induction h with
  | init jid uuid pdf => intro e he; simp [initState] at he
  | step op ps hop _ ih => exact InvS_applyOp op ps ih

theorem isTermC_not_isTermF (s : StudentState) (h : isTermC s = true) :
    isTermF s = false := by
  simp only [isTermC, beq_iff_eq] at h
  simp [isTermF, h]

theorem InvC_stepStudent_frame (g : StudentQueue → Bool)
    (f : StudentQueue → StudentQueue) (jobUpd : PipelineJob → PipelineJob)
    (stage logStatus : String) (i : Nat)
    (ps : PipelineState) (h : InvC ps) (hid : ∀ j, jobUpd j = j)
    (hflag : ∀ e, e ∈ ps.students → g e = true →
      isTermC ((f e).state) = isTermC e.state
        ∧ isTermF ((f e).state) = isTermF e.state) :
    InvC (stepStudent g f jobUpd stage logStatus i ps) := by
  unfold stepStudent
  split
  case h_2 => exact h
  case h_1 e hE =>
      by_cases hg : g e = true
      case neg => rw [if_neg hg]; exact h
      rw [if_pos hg, hid ps.job]
      obtain ⟨h1, h2, h3, h4, h5⟩ := h
      have hmem := mem_of_idx _ _ _ hE
      obtain ⟨hfc, hff⟩ := hflag e hmem hg
      have hC := countP_updAt_eq (fun x => isTermC x.state) f i ps.students e hE hfc
      have hF := countP_updAt_eq (fun x => isTermF x.state) f i ps.students e hE hff
      refine ⟨?_, ?_, ?_, h4, ?_⟩
      · simpa [length_updAt] using h1
      · simp [hC, h2]
      · simp [hF, h3]
      · intro hst
        exfalso
        have hemp : ps.students = [] := h5 hst
        rw [hemp] at hE
        simp at hE

theorem InvC_stepStudent_terminal (g : StudentQueue → Bool)
    (f : StudentQueue → StudentQueue) (stage logStatus : String) (i : Nat)
    (ps : PipelineState) (outcomeCompleted : Bool) (h : InvC ps)
    (hflag : ∀ e, e ∈ ps.students → g e = true →
      isTermC e.state = false ∧ isTermF e.state = false
        ∧ isTermC ((f e).state) = outcomeCompleted
        ∧ isTermF ((f e).state) = !outcomeCompleted) :
    InvC (stepStudent g f
      (fun j => recordStudentTerminal j outcomeCompleted)
      stage logStatus i ps) := by
  unfold stepStudent
  split
  case h_2 => exact h
  case h_1 e hE =>
      by_cases hg : g e = true
      case neg => rw [if_neg hg]; exact h
      rw [if_pos hg]
      obtain ⟨h1, h2, h3, h4, h5⟩ := h
      have hmem := mem_of_idx _ _ _ hE
      obtain ⟨hb1, hb2, ha1, ha2⟩ := hflag e hmem hg
      have hlt : ps.students.countP (fun x => isTermC x.state)
            + ps.students.countP (fun x => isTermF x.state)
          < ps.students.length :=
        countP_disjoint_lt _ _ (fun x => isTermC_not_isTermF x.state)
          i ps.students e hE hb1 hb2
      have hemp : (ps.job.status = .initiated ∨ ps.job.status = .stamp_processing)
          → False := by
        intro hst
        have hnil := h5 hst
        rw [hnil] at hE
        simp at hE
      cases outcomeCompleted with
      | true =>
          have ha2f : isTermF ((f e).state) = false := by simpa using ha2
          have hC : (updAt f i ps.students).countP (fun x => isTermC x.state)
              = ps.students.countP (fun x => isTermC x.state) + 1 :=
            countP_updAt_add (fun x => isTermC x.state) f i ps.students e
              hE hb1 ha1
          have hF : (updAt f i ps.students).countP (fun x => isTermF x.state)
              = ps.students.countP (fun x => isTermF x.state) :=
            countP_updAt_eq (fun x => isTermF x.state) f i ps.students e
              hE (ha2f.trans hb2.symm)
          simp only [recordStudentTerminal]
          by_cases hfull : (ps.job.students_completed + 1 + ps.job.students_failed
              == ps.job.total_students) = true
          · rw [if_pos (by simpa using hfull)]
            refine ⟨?_, ?_, ?_, ?_, ?_⟩
            · simpa [length_updAt] using h1
            · simp [hC, h2]
            · simp [hF, h3]
            · intro _
              simpa using beq_iff_eq.mp hfull
            · intro hst
              rcases hst with hst | hst <;> simp at hst
          · rw [if_neg (by simpa using hfull)]
            refine ⟨?_, ?_, ?_, ?_, ?_⟩
            · simpa [length_updAt] using h1
            · simp [hC, h2]
            · simp [hF, h3]
            · intro hst
              exfalso
              have heq := h4 hst
              rw [h2, h3, h1] at heq
              omega
            · intro hst
              exact absurd hst hemp
      | false =>
          have ha2t : isTermF ((f e).state) = true := by simpa using ha2
          have hC : (updAt f i ps.students).countP (fun x => isTermC x.state)
              = ps.students.countP (fun x => isTermC x.state) :=
            countP_updAt_eq (fun x => isTermC x.state) f i ps.students e
              hE (ha1.trans hb1.symm)
          have hF : (updAt f i ps.students).countP (fun x => isTermF x.state)
              = ps.students.countP (fun x => isTermF x.state) + 1 :=
            countP_updAt_add (fun x => isTermF x.state) f i ps.students e
              hE hb2 ha2t
          simp only [recordStudentTerminal]
          by_cases hfull : (ps.job.students_completed + (ps.job.students_failed + 1)
              == ps.job.total_students) = true
          · rw [if_pos (by simpa using hfull)]
            refine ⟨?_, ?_, ?_, ?_, ?_⟩
            · simpa [length_updAt] using h1
            · simp [hC, h2]
            · simp [hF, h3]
            · intro _
              simpa using beq_iff_eq.mp hfull
            · intro hst
              rcases hst with hst | hst <;> simp at hst
          · rw [if_neg (by simpa using hfull)]
            refine ⟨?_, ?_, ?_, ?_, ?_⟩
            · simpa [length_updAt] using h1
            · simp [hC, h2]
            · simp [hF, h3]
            · intro hst
              exfalso
              have heq := h4 hst
              rw [h2, h3, h1] at heq
              omega
            · intro hst
              exact absurd hst hemp

theorem InvC_discoverOp (rolls : List String) (ps : PipelineState)
    (h : InvC ps) : InvC (discoverOp rolls ps) := by
  unfold discoverOp
  by_cases hst : (ps.job.status == JobStatus.initiated
      || ps.job.status == JobStatus.stamp_processing) = true
  case neg => rw [if_neg hst]; exact h
  rw [if_pos hst]
  obtain ⟨h1, h2, h3, h4, h5⟩ := h
  have hOR : ps.job.status = .initiated ∨ ps.job.status = .stamp_processing := by
    simpa using hst
  have hemp : ps.students = [] := h5 hOR
  have hzC : ps.job.students_completed = 0 := by rw [h2, hemp]; rfl
  have hzF : ps.job.students_failed = 0 := by rw [h3, hemp]; rfl
  refine ⟨?_, ?_, ?_, ?_, ?_⟩
  · simp
  · rw [countP_map_zero _ _ (fun a => rfl)]
    exact hzC
  · rw [countP_map_zero _ _ (fun a => rfl)]
    exact hzF
  · intro hcomp
    simp at hcomp
  · intro hcon
    rcases hcon with hc | hc <;> simp at hc

theorem InvC_discoverFailOp (msg : String) (ps : PipelineState)
    (h : InvC ps) : InvC (discoverFailOp msg ps) := by
  unfold discoverFailOp
  by_cases hst : (ps.job.status == JobStatus.initiated
      || ps.job.status == JobStatus.stamp_processing) = true
  case neg => rw [if_neg hst]; exact h
  rw [if_pos hst]
  obtain ⟨h1, h2, h3, h4, h5⟩ := h
  refine ⟨h1, h2, h3, ?_, ?_⟩
  · intro hcomp
    simp at hcomp
  · intro hcon
    rcases hcon with hc | hc <;> simp at hc

theorem InvC_applyOp (op : Op) (ps : PipelineState)
    (hnr : op.isRetry = false) (hs : InvS ps) (h : InvC ps) :
    InvC (applyOp op ps) := by
  cases op with
  | discover rolls => exact InvC_discoverOp rolls ps h
  | discoverFail msg => exact InvC_discoverFailOp msg ps h
  | claim i st =>
      refine InvC_stepStudent_frame _ _ id _ _ i ps h (fun j => rfl) ?_
      intro e hm hg
      obtain ⟨f1, f2, f3, f4⟩ := claimCore_flags st e.state hg (hs e hm)
      exact ⟨f3.trans f1.symm, f4.trans f2.symm⟩
  | failTransient i st =>
      refine InvC_stepStudent_frame _ _ id _ _ i ps h (fun j => rfl) ?_
      intro e hm hg
      have hw : workGuard st e.state = true := by
        simp only [Bool.and_eq_true] at hg
        exact hg.1
      obtain ⟨f1, f2, f3, f4⟩ := failTransientCore_flags st e.state hw (hs e hm)
      exact ⟨f3.trans f1.symm, f4.trans f2.symm⟩
  | complete i st =>
      by_cases hstg : st = Stage.grading
      · subst hstg
        refine InvC_stepStudent_terminal _ _ _ _ i ps true h ?_
        intro e hm hg
        obtain ⟨f1, f2, f3, f4⟩ := completeCore_flags .grading e.state hg (hs e hm)
        exact ⟨f1, f2, by simpa using f3, by simpa using f4⟩
      · have hne : (st == Stage.grading) = false := by
          simp [hstg]
        refine InvC_stepStudent_frame _ _ _ _ _ i ps h (fun j => by simp [hne]) ?_
        intro e hm hg
        obtain ⟨f1, f2, f3, f4⟩ := completeCore_flags st e.state hg (hs e hm)
        rw [hne] at f3
        exact ⟨f3.trans f1.symm, f4.trans f2.symm⟩
  | failPermanent i st nr msg =>
      refine InvC_stepStudent_terminal _ _ _ _ i ps false h ?_
      intro e hm hg
      have hw : workGuard st e.state = true := by
        simp only [Bool.and_eq_true] at hg
        exact hg.1
      obtain ⟨f1, f2, f3, f4⟩ := failPermanentCore_flags st e.state hw (hs e hm)
      exact ⟨f1, f2, f3, by simpa using f4⟩
  | retry uuid roll => simp [Op.isRetry] at hnr

theorem InvC_reachNoRetry (ps : PipelineState) (h : ReachNoRetry ps) :
    InvC ps := by
  induction h with
  | init jid uuid pdf =>
      exact ⟨rfl, rfl, rfl, fun _ => rfl, fun _ => rfl⟩
  | step op ps hop hr ih =>
      exact InvC_applyOp op ps hop (InvS_reach ps hr) ih

theorem retry_fs_notFound (question_paper_uuid roll_no : String) :
    ∀ db : List StudentQueue,
      db.find? (matchesStudent question_paper_uuid roll_no) = none →
      retry_failed_student db question_paper_uuid roll_no = (.notFound, db) := by
  intro db
  induction db with
  | nil => intro _; rfl
  | cons e rest ih =>
      intro h
      by_cases hm : matchesStudent question_paper_uuid roll_no e = true
      · rw [List.find?_cons_of_pos _ hm] at h
        exact absurd h (by simp)
      · rw [List.find?_cons_of_neg _ (by simpa using hm)] at h
        have hr := ih h
        simp [retry_failed_student, hm, hr]

theorem retry_fs_invalid (question_paper_uuid roll_no : String) :
    ∀ (db : List StudentQueue) (s : StudentQueue),
      db.find? (matchesStudent question_paper_uuid roll_no) = some s →
      s.state.overall_status ≠ .failed →
      retry_failed_student db question_paper_uuid roll_no
        = (.invalidState, db) := by
  intro db
  induction db with
  | nil => intro s h; simp at h
  | cons e rest ih =>
      intro s h hs
      by_cases hm : matchesStudent question_paper_uuid roll_no e = true
      · rw [List.find?_cons_of_pos _ hm] at h
        obtain rfl : e = s := by simpa using h
        have hfail : (e.state.overall_status == Status.failed) = false := by
          simpa using hs
        simp [retry_failed_student, hm, hfail]
      · rw [List.find?_cons_of_neg _ (by simpa using hm)] at h
        have hr := ih s h hs
        simp [retry_failed_student, hm, hr]

theorem runClaims_not_pending :
    ∀ (n : Nat) (s : Status), s ≠ .pending → runClaims s n = (s, 0) := by
  intro n
  induction n with
  | zero => intro s _; rfl
  | succ m ih =>
      intro s hs
      have hb : (s == Status.pending) = false := by simpa using hs
      simp [runClaims, casClaim, hb, ih s hs]

theorem stepStudent_logs (g : StudentQueue → Bool)
    (f : StudentQueue → StudentQueue) (jobUpd : PipelineJob → PipelineJob)
    (stage logStatus : String) (i : Nat) (ps : PipelineState) :
    ∃ tl, (stepStudent g f jobUpd stage logStatus i ps).logs
      = ps.logs ++ tl := by
  unfold stepStudent
  split
  case h_2 => exact ⟨[], by simp⟩
  case h_1 e hE =>
      by_cases hg : g e = true
      · rw [if_pos hg]
        exact ⟨_, rfl⟩
      · rw [if_neg hg]
        exact ⟨[], by simp⟩

theorem applyOp_logs (op : Op) (ps : PipelineState) :
    ∃ tl, (applyOp op ps).logs = ps.logs ++ tl := by
  cases op with
  | discover rolls =>
      simp only [applyOp, discoverOp]
      by_cases hst : (ps.job.status == JobStatus.initiated
          || ps.job.status == JobStatus.stamp_processing) = true
      · rw [if_pos hst]
        exact ⟨_, rfl⟩
      · rw [if_neg hst]
        exact ⟨[], by simp⟩
  | discoverFail msg =>
      simp only [applyOp, discoverFailOp]
      by_cases hst : (ps.job.status == JobStatus.initiated
          || ps.job.status == JobStatus.stamp_processing) = true
      · rw [if_pos hst]
        exact ⟨_, rfl⟩
      · rw [if_neg hst]
        exact ⟨[], by simp⟩
  | claim i st => exact stepStudent_logs _ _ _ _ _ i ps
  | complete i st => exact stepStudent_logs _ _ _ _ _ i ps
  | failTransient i st => exact stepStudent_logs _ _ _ _ _ i ps
  | failPermanent i st nr msg => exact stepStudent_logs _ _ _ _ _ i ps
  | retry uuid roll =>
      simp only [applyOp, retryOp]
      split
      · exact ⟨_, rfl⟩
      · exact ⟨[], by simp⟩

theorem onlyFailed_hasFailed (s : StudentState) (st : Stage)
    (h : onlyFailedAtState s st = true) : hasFailedStage s = true := by
  cases st <;> simp_all [onlyFailedAtState, hasFailedStage]

/-- C2: for a student with `overall_status = failed` whose only failed
per-stage status is stage `st`, `retry_failed_student` sets exactly that
stage back to `pending`, sets `current_stage` to that stage's pending
state, `overall_status = pending`, `retry_count = 0` and clears
`error_message`; every other column of the row — in particular the
per-stage statuses already `completed` and all timestamps — is left
unchanged. -/
theorem C2_retry_frame_effect (e : StudentQueue) (st : Stage)
    (_hfail : e.state.overall_status = .failed)
    (honly : onlyFailedAtState e.state st = true) :
    retryReset e
      = { e with
          state :=
            { setStageStatus e.state st .pending with
              current_stage := pendingStage st, overall_status := .pending }
          retry_count := 0
          error_message := none } := by
  unfold retryReset
  rw [retryCore_onlyFailed st e.state honly]

theorem C2_retry_frame_effect_witness :
    c2Entry.state.overall_status = .failed
      ∧ retryReset c2Entry
        = { c2Entry with
            state :=
              { setStageStatus c2Entry.state .qa .pending with
                current_stage := pendingStage .qa, overall_status := .pending }
            retry_count := 0
            error_message := none } :=
  ⟨rfl, C2_retry_frame_effect c2Entry .qa rfl (by decide)⟩

/-- C3: the error paths of the `retry_failed_student` endpoint: a
missing (question_paper_uuid, roll_no) pair answers "not found" with
the store untouched; an existing student whose `overall_status` is not
`failed` answers "invalid state" with the store untouched; and every
call produces one of the three structured results (the embedding is a
total function — nothing escapes the control surface). -/
theorem C3_retry_error_paths (db : List StudentQueue)
    (question_paper_uuid roll_no : String) :
    (db.find? (matchesStudent question_paper_uuid roll_no) = none →
      retry_failed_student db question_paper_uuid roll_no = (.notFound, db))
    ∧ (∀ s, db.find? (matchesStudent question_paper_uuid roll_no) = some s →
        s.state.overall_status ≠ .failed →
        retry_failed_student db question_paper_uuid roll_no
          = (.invalidState, db))
    ∧ ((retry_failed_student db question_paper_uuid roll_no).1 = .notFound
        ∨ (retry_failed_student db question_paper_uuid roll_no).1
            = .invalidState
        ∨ ∃ cs os, (retry_failed_student db question_paper_uuid roll_no).1
            = .success cs os) := by
  refine ⟨retry_fs_notFound _ _ db,
    fun s h hs => retry_fs_invalid _ _ db s h hs, ?_⟩
  cases hq : (retry_failed_student db question_paper_uuid roll_no).1 with
  | notFound => exact Or.inl rfl
  | invalidState => exact Or.inr (Or.inl rfl)
  | success cs os => exact Or.inr (Or.inr ⟨cs, os, rfl⟩)

theorem C3_retry_error_paths_witness :
    retry_failed_student [] "qp_w3" "1" = (.notFound, [])
      ∧ retry_failed_student [c3Entry] "qp_w3" "1"
          = (.invalidState, [c3Entry]) :=
  ⟨(C3_retry_error_paths [] "qp_w3" "1").1 rfl,
   (C3_retry_error_paths [c3Entry] "qp_w3" "1").2.1 c3Entry (by decide)
     (by decide)⟩

/-- C5: starting a pipeline with a `job_id` that already exists answers
the duplicate-job error and leaves the job table unchanged; with a
fresh `job_id` it appends exactly one job, created with status
`initiated`, and answers with that `job_id` and `status=initiated`. -/
theorem C5_start_job (db : List PipelineJob) (job_id uuid : String)
    (pdf : Option String) :
    ((∃ j ∈ db, j.job_id = job_id) →
      start_pdf_pipeline db job_id (some uuid) pdf = (.duplicateJob job_id, db))
    ∧ ((∀ j ∈ db, j.job_id ≠ job_id) →
      start_pdf_pipeline db job_id (some uuid) pdf
        = (.started job_id uuid .initiated, db ++ [mkJob job_id uuid pdf])
      ∧ (mkJob job_id uuid pdf).status = .initiated
      ∧ (mkJob job_id uuid pdf).job_id = job_id) := by
  constructor
  · rintro ⟨j, hj, hjid⟩
    have hany : db.any (fun j => j.job_id == job_id) = true :=
      List.any_eq_true.mpr ⟨j, hj, by simpa using hjid⟩
    simp [start_pdf_pipeline, hany]
  · intro hall
    have hany : db.any (fun j => j.job_id == job_id) = false := by
      cases hx : db.any (fun j => j.job_id == job_id)
      · rfl
      · obtain ⟨j, hj, hb⟩ := List.any_eq_true.mp hx
        exact absurd (by simpa using hb) (hall j hj)
    refine ⟨?_, rfl, rfl⟩
    simp [start_pdf_pipeline, hany]

theorem C5_start_job_witness :
    start_pdf_pipeline [c5Job] "job_a" (some "qp_other") none
        = (.duplicateJob "job_a", [c5Job])
      ∧ start_pdf_pipeline [] "job_b" (some "qp_w5") none
          = (.started "job_b" "qp_w5" .initiated, [mkJob "job_b" "qp_w5" none]) :=
  ⟨(C5_start_job [c5Job] "job_a" "qp_other" none).1
      ⟨c5Job, by simp, rfl⟩,
   ((C5_start_job [] "job_b" "qp_w5" none).2 (by simp)).1⟩

/-- C7: the batch a stage worker lists — the rows whose status for that
stage is `pending` — is sorted by the lexicographic key
(priority descending, `created_at` ascending), and it contains exactly
the pending rows of the table. -/
theorem C7_dispatch_order (db : List StudentQueue) (st : Stage)
    (e : StudentQueue) :
    (pendingBatch db st).Sorted queueRel
      ∧ (e ∈ pendingBatch db st
          ↔ e ∈ db ∧ stageStatusOf e.state st = .pending) := by
  constructor
  · exact List.sorted_insertionSort queueRel _
  · simp only [pendingBatch]
    rw [List.Perm.mem_iff (List.perm_insertionSort queueRel _)]
    simp [List.mem_filter]

theorem C7_dispatch_order_witness :
    (pendingBatch [c7Lo, c7Hi] .ocr).Sorted queueRel
      ∧ (c7Hi ∈ pendingBatch [c7Lo, c7Hi] .ocr
          ↔ c7Hi ∈ [c7Lo, c7Hi]
              ∧ stageStatusOf c7Hi.state .ocr = .pending) :=
  C7_dispatch_order [c7Lo, c7Hi] .ocr c7Hi

/-- C8: the claim protocol is race-safe: when `n > 0` workers attempt
the compare-and-swap on the same `pending` entry (serialised by the
storage layer in any order), the entry ends `processing` and exactly
one claimant succeeds; every other claimant observes a failed
conditional update. -/
theorem C8_claim_race_safe (n : Nat) (hn : 0 < n) :
    runClaims .pending n = (.processing, 1) := by
  cases n with
  | zero => exact absurd hn (lt_irrefl 0)
  | succ m =>
      simp [runClaims, casClaim,
        runClaims_not_pending m .processing (by simp)]

theorem C8_claim_race_safe_witness :
    runClaims .pending 3 = (.processing, 1) :=
  C8_claim_race_safe 3 (by decide)

/-- C9: `cleanup_old_logs --days N` keeps a log row iff it is in the
table and not strictly older than `now - N` days (so it deletes exactly
the strictly older rows), it never reorders or rewrites the kept rows
(the result is a sublist of the table), the reported count is the
number of deleted rows, and every core operation only ever appends to
the processing log — no operation mutates or deletes an existing
entry. -/
theorem C9_log_retention (db : List ProcessingLog) (now : Int) (days : Nat) :
    (∀ l, l ∈ (cleanup_old_logs db now days).1
        ↔ l ∈ db ∧ ¬ l.timestamp < now - (days : Int) * secondsPerDay)
    ∧ (cleanup_old_logs db now days).1.Sublist db
    ∧ (cleanup_old_logs db now days).2
        = (db.filter
            (fun l => decide (l.timestamp < now - (days : Int) * secondsPerDay))).length
    ∧ (∀ (op : Op) (ps : PipelineState),
        ∃ tl, (applyOp op ps).logs = ps.logs ++ tl) := by
  refine ⟨?_, ?_, rfl, applyOp_logs⟩
  · intro l
    simp [cleanup_old_logs, List.mem_filter]
  · exact List.filter_sublist db

theorem C9_log_retention_witness :
    (c9New ∈ (cleanup_old_logs [c9Old, c9New] 5000000 30).1
        ↔ c9New ∈ [c9Old, c9New]
            ∧ ¬ c9New.timestamp < 5000000 - (30 : Int) * secondsPerDay)
      ∧ (cleanup_old_logs [c9Old, c9New] 5000000 30).1.Sublist
          [c9Old, c9New] :=
  ⟨(C9_log_retention [c9Old, c9New] 5000000 30).1 c9New,
   (C9_log_retention [c9Old, c9New] 5000000 30).2.1⟩

/-- C10: `get_completion_rate` is total: it returns 0 for an empty
roster, otherwise the percentage of completed students rounded to one
decimal place; and it never reads `students_failed`, so failed students
do not raise it. -/
theorem C10_completion_rate (j : PipelineJob) :
    (j.total_students = 0 → get_completion_rate j = 0)
    ∧ (0 < j.total_students →
        get_completion_rate j
          = round1
              (((j.students_completed : ℚ) / (j.total_students : ℚ)) * 100))
    ∧ (∀ x, get_completion_rate { j with students_failed := x }
        = get_completion_rate j) := by
  refine ⟨?_, ?_, fun x => rfl⟩
  · intro h
    simp [get_completion_rate, h]
  · intro h
    simp [get_completion_rate, h]

theorem C10_completion_rate_witness :
    get_completion_rate c10Job = 25
      ∧ get_completion_rate { c10Job with students_failed := 3 }
          = get_completion_rate c10Job := by
  have h := C10_completion_rate c10Job
  refine ⟨?_, h.2.2 3⟩
  rw [h.2.1 (by decide)]
  have hq : ((c10Job.students_completed : ℚ) / (c10Job.total_students : ℚ))
      * 100 = 25 := by
    norm_num [c10Job, mkJob]
  rw [hq]
  norm_num [round1, round_ofNat]

/-- C6 counterexample: the three reset variants do not agree on every
failed entry.  On an entry with several failed stage statuses the admin
action (which checks ocr first) and the endpoint (which checks grading
first) produce different rows; on an entry with no failed stage status
the endpoint moves `current_stage` to `ocr_pending` while the
management command leaves it unchanged. -/
theorem C6_counterexample :
    adminReset c6Multi ≠ retryReset c6Multi
      ∧ cmdReset c6None ≠ retryReset c6None
      ∧ (adminReset c6Multi).state.current_stage = .ocr_pending
      ∧ (retryReset c6Multi).state.current_stage = .grading_pending
      ∧ (cmdReset c6None).state.current_stage = .failed
      ∧ (retryReset c6None).state.current_stage = .ocr_pending := by
  refine ⟨by decide, by decide, rfl, rfl, rfl, rfl⟩

/-- C6 amended: for a failed entry with exactly one failed per-stage
status — the only shape of failed entry the pipeline itself produces —
the management command, the admin action and the single-student
endpoint apply the same transformation; the management command agrees
with the endpoint whenever at least one stage status is failed.  The
three disagree only on degenerate rows: with several failed stages the
admin action resets the earliest while the endpoint resets the latest,
and with none the endpoint falls back to `ocr_pending` while the bulk
variants leave `current_stage` unchanged. -/
theorem C6_bulk_reset_agreement (e : StudentQueue) (st : Stage)
    (_hfail : e.state.overall_status = .failed) :
    (onlyFailedAtState e.state st = true →
      cmdReset e = retryReset e ∧ adminReset e = retryReset e)
    ∧ (hasFailedStage e.state = true → cmdReset e = retryReset e) := by
  constructor
  · intro h
    constructor
    · unfold cmdReset retryReset
      rw [cmdResetCore_eq_retryCore e.state (onlyFailed_hasFailed e.state st h)]
    · unfold adminReset retryReset
      rw [adminResetCore_onlyFailed st e.state h]
  · intro h
    unfold cmdReset retryReset
    rw [cmdResetCore_eq_retryCore e.state h]

theorem C6_bulk_reset_agreement_witness :
    cmdReset c6Single = retryReset c6Single
      ∧ adminReset c6Single = retryReset c6Single :=
  (C6_bulk_reset_agreement c6Single .qa rfl).1 (by decide)

/-- C1 counterexample: the job-counter invariant is not preserved once
the operator retry re-enters the picture.  Along the reachable trace
discover → claim → permanent failure → retry → claim → permanent
failure (one student), the student's terminal outcome is recorded
twice: `retry_failed_student` returns the student to `pending` without
decrementing `students_failed`, so the second failure drives
`students_completed + students_failed` above `total_students`, on a job
whose status is already `completed`. -/
theorem C1_counterexample :
    Reach c1Trace
      ∧ c1Trace.job.total_students
          < c1Trace.job.students_completed + c1Trace.job.students_failed
      ∧ c1Trace.job.status = .completed
      ∧ c1Trace.job.students_completed + c1Trace.job.students_failed
          ≠ c1Trace.job.total_students := by
  refine ⟨?_, by decide, by decide, by decide⟩
  exact ReachVia.step _ _ True.intro
    (ReachVia.step _ _ True.intro
      (ReachVia.step _ _ True.intro
        (ReachVia.step _ _ True.intro
          (ReachVia.step _ _ True.intro
            (ReachVia.step _ _ True.intro
              (ReachVia.init "job_c1" "qp_c1" none))))))

/-- C1 amended: on every state reachable without the operator retry,
`students_completed + students_failed ≤ total_students`, with equality
as soon as the job's status is `completed`; and the retry operation
itself leaves the job row — in particular both counters and
`total_students` — unchanged (so it preserves the inequality at the
state where it is applied; the violation arises only when a retried
student is recorded terminal a second time). -/
theorem C1_job_counter_invariant :
    (∀ ps : PipelineState, ReachNoRetry ps →
      ps.job.students_completed + ps.job.students_failed
          ≤ ps.job.total_students
        ∧ (ps.job.status = .completed →
            ps.job.students_completed + ps.job.students_failed
              = ps.job.total_students))
    ∧ (∀ (question_paper_uuid roll_no : String) (ps : PipelineState),
        (retryOp question_paper_uuid roll_no ps).job = ps.job) := by
  constructor
  · intro ps h
    obtain ⟨h1, h2, h3, h4, h5⟩ := InvC_reachNoRetry ps h
    refine ⟨?_, h4⟩
    rw [h1, h2, h3]
    exact countP_disjoint_le _ _ (fun x => isTermC_not_isTermF x.state)
      ps.students
  · intro uuid roll ps
    simp only [retryOp]
    split
    · rfl
    · rfl

theorem C1_job_counter_invariant_witness :
    ((initState "job_w1" "qp_w1" none).job.students_completed
        + (initState "job_w1" "qp_w1" none).job.students_failed
      ≤ (initState "job_w1" "qp_w1" none).job.total_students)
    ∧ (retryOp "qp_w1" "1" (initState "job_w1" "qp_w1" none)).job
        = (initState "job_w1" "qp_w1" none).job :=
  ⟨(C1_job_counter_invariant.1 _ (ReachVia.init "job_w1" "qp_w1" none)).1,
   C1_job_counter_invariant.2 "qp_w1" "1" _⟩

/-- C4 counterexample: "exactly one not-yet-completed stage is pending
or processing" is already false at the first reachable state that has a
student: a freshly discovered entry (a non-failed entry) has all four
per-stage statuses at their `pending` default, so four not-yet-completed
stages are pending at once. -/
theorem C4_counterexample :
    Reach c4Disco
      ∧ c4Disco.students[0]? = some (mkEntry "job_c4" "qp_c4" "1")
      ∧ (mkEntry "job_c4" "qp_c4" "1").state.overall_status ≠ .failed
      ∧ activeStageCount (mkEntry "job_c4" "qp_c4" "1").state = 4 := by
  refine ⟨?_, by decide, by decide, by decide⟩
  exact ReachVia.step _ _ True.intro (ReachVia.init "job_c4" "qp_c4" none)

/-- C4 amended: at every reachable state — including through
`retry_failed_student` applied to any reachable failed entry — every
entry with `overall_status ≠ failed` satisfies `stateOk`: the stages
strictly before `current_stage` are exactly the `completed` ones, the
stage of `current_stage` carries the matching pending/processing
status, and the stages after it are all still `pending` (not "exactly
one"); a failed entry has `current_stage = failed` and exactly one
failed stage with completed predecessors and pending successors. -/
theorem C4_stage_consistency (ps : PipelineState) (h : Reach ps) :
    ∀ e ∈ ps.students, stateOk e.state = true :=
  InvS_reach ps h

theorem C4_stage_consistency_witness :
    stateOk (mkEntry "job_w4" "qp_w4" "1").state = true :=
  C4_stage_consistency
    (applyOp (.discover ["1"]) (initState "job_w4" "qp_w4" none))
    (ReachVia.step _ _ True.intro (ReachVia.init "job_w4" "qp_w4" none))
    (mkEntry "job_w4" "qp_w4" "1") (by decide)
